import Mathlib

/-!
Verification development for the type-guards repository.

The validation engine, Result model and audited user store live in
src/detailed-type-guards.ts (first document: detailed guards; second
document: the comprehensive basic guards) and src/express-type-guards.ts
(the UserService store).  Untyped JavaScript runtime values are embedded
as the inductive `JSValue`; JavaScript numbers are `JSNumber` (finite
rationals plus NaN and the two infinities, which is exact for every
numeric operation the validated code performs).  Objects are
insertion-ordered association lists, matching the enumeration order of
plain objects and of `Map`.  Prototype-chain lookups and class instances
other than `Date` are outside the modelled fragment; none of the
validated code relies on them.  Calls to `Date.now`, `new Date()` and
`generateId` are modelled as explicit parameters drawn in source order.
-/

/-- A JavaScript number: NaN, the infinities, or a finite value
(finite doubles form a subset of the rationals, and every arithmetic
step performed by the validated code stays exact). -/
inductive JSNumber where
  | nan : JSNumber
  | posInf : JSNumber
  | negInf : JSNumber
  | finite : ℚ → JSNumber
deriving DecidableEq

/-- Truthiness of a number: NaN and 0 are falsy, everything else truthy. -/
def JSNumber.truthy : JSNumber → Bool
  | .nan => false
  | .posInf => true
  | .negInf => true
  | .finite q => decide (q ≠ 0)

/-- The isNaN test on a number. -/
def JSNumber.isNaNB : JSNumber → Bool
  | .nan => true
  | _ => false

/-- The isFinite test on a number. -/
def JSNumber.isFiniteB : JSNumber → Bool
  | .finite _ => true
  | _ => false

/-- The comparison value > 0 on a number (false on NaN). -/
def JSNumber.gtZero : JSNumber → Bool
  | .finite q => decide (0 < q)
  | .posInf => true
  | _ => false

/-- Number.isInteger. -/
def JSNumber.isIntegerB : JSNumber → Bool
  | .finite q => decide (q.den = 1)
  | _ => false

/-- JavaScript subtraction on numbers. -/
def JSNumber.sub : JSNumber → JSNumber → JSNumber
  | .nan, _ => .nan
  | _, .nan => .nan
  | .posInf, .posInf => .nan
  | .posInf, _ => .posInf
  | .negInf, .negInf => .nan
  | .negInf, _ => .negInf
  | .finite _, .posInf => .negInf
  | .finite _, .negInf => .posInf
  | .finite a, .finite b => .finite (a - b)

/-- JavaScript addition on numbers. -/
def JSNumber.add : JSNumber → JSNumber → JSNumber
  | .nan, _ => .nan
  | _, .nan => .nan
  | .posInf, .negInf => .nan
  | .negInf, .posInf => .nan
  | .posInf, _ => .posInf
  | _, .posInf => .posInf
  | .negInf, _ => .negInf
  | _, .negInf => .negInf
  | .finite a, .finite b => .finite (a + b)

/-- JavaScript multiplication on numbers. -/
def JSNumber.mul : JSNumber → JSNumber → JSNumber
  | .nan, _ => .nan
  | _, .nan => .nan
  | .finite a, .finite b => .finite (a * b)
  | .posInf, .posInf => .posInf
  | .posInf, .negInf => .negInf
  | .negInf, .posInf => .negInf
  | .negInf, .negInf => .posInf
  | .posInf, .finite b => if b = 0 then .nan else if 0 < b then .posInf else .negInf
  | .finite a, .posInf => if a = 0 then .nan else if 0 < a then .posInf else .negInf
  | .negInf, .finite b => if b = 0 then .nan else if 0 < b then .negInf else .posInf
  | .finite a, .negInf => if a = 0 then .nan else if 0 < a then .negInf else .posInf

/-- JavaScript less-than on numbers (false whenever NaN is involved). -/
def JSNumber.ltB : JSNumber → JSNumber → Bool
  | .nan, _ => false
  | _, .nan => false
  | .negInf, .negInf => false
  | .negInf, _ => true
  | _, .negInf => false
  | .posInf, _ => false
  | .finite _, .posInf => true
  | .finite a, .finite b => decide (a < b)

/-- Membership of a character in the regex class backslash-s (JavaScript
whitespace: WhiteSpace plus LineTerminator, including the Unicode space
separators). -/
def jsWhitespace (c : Char) : Bool :=
  c ∈ ([' ', '\t', '\n', '\r', '\x0b', '\x0c',
        Char.ofNat 0xa0, Char.ofNat 0xfeff, Char.ofNat 0x1680,
        Char.ofNat 0x2000, Char.ofNat 0x2001, Char.ofNat 0x2002,
        Char.ofNat 0x2003, Char.ofNat 0x2004, Char.ofNat 0x2005,
        Char.ofNat 0x2006, Char.ofNat 0x2007, Char.ofNat 0x2008,
        Char.ofNat 0x2009, Char.ofNat 0x200a, Char.ofNat 0x2028,
        Char.ofNat 0x2029, Char.ofNat 0x202f, Char.ofNat 0x205f,
        Char.ofNat 0x3000] : List Char)

/-- String.prototype.trim: strip JavaScript whitespace from both ends. -/
def jsTrimList (l : List Char) : List Char :=
  ((l.dropWhile jsWhitespace).reverse.dropWhile jsWhitespace).reverse

/-- String.prototype.trim on a string. -/
def jsTrim (s : String) : String :=
  ⟨jsTrimList s.data⟩

/-- A JavaScript runtime value of the fragment the validated code
manipulates.  Objects carry their own enumerable string-keyed properties
in insertion order; a Date carries its time value, `none` standing for an
invalid date (NaN time value). -/
inductive JSValue where
  | vUndefined : JSValue
  | vNull : JSValue
  | vBool : Bool → JSValue
  | vNum : JSNumber → JSValue
  | vStr : String → JSValue
  | vArr : List JSValue → JSValue
  | vObj : List (String × JSValue) → JSValue
  | vDate : Option Int → JSValue

/-- First-match lookup in an association list (property access and
Map.prototype.get). -/
def alistGet {β : Type} : List (String × β) → String → Option β
  | [], _ => none
  | (k, v) :: rest, key => if k = key then some v else alistGet rest key

/-- Map.prototype.set and property assignment: overwrite in place when
the key exists (keeping its position, as JavaScript does), append
otherwise. -/
def alistSet {β : Type} : List (String × β) → String → β → List (String × β)
  | [], k, v => [(k, v)]
  | (k', v') :: rest, k, v =>
      if k' = k then (k, v) :: rest else (k', v') :: alistSet rest k v

/-- Map.prototype.delete: remove the entry with the given key. -/
def alistDelete {β : Type} : List (String × β) → String → List (String × β)
  | [], _ => []
  | (k', v') :: rest, k =>
      if k' = k then rest else (k', v') :: alistDelete rest k

/-- Whether an association list has the key. -/
def alistHas {β : Type} (l : List (String × β)) (k : String) : Bool :=
  (alistGet l k).isSome

/-- Property read on an object (`value.field`): the bound property if the
value is an object with it, otherwise none. -/
def getField : JSValue → String → Option JSValue
  | .vObj fs, k => alistGet fs k
  | _, _ => none

/-- The `in` operator restricted to own properties of plain objects
(Dates and arrays have none of the property names the code tests). -/
def hasField (v : JSValue) (k : String) : Bool :=
  (getField v k).isSome

/-- Property access `value.field`, yielding undefined when absent. -/
def jsGet (v : JSValue) (k : String) : JSValue :=
  (getField v k).getD .vUndefined

/-- Property assignment `value.field = x` (the code only assigns into
plain objects). -/
def setProp (v : JSValue) (k : String) (x : JSValue) : JSValue :=
  match v with
  | .vObj fs => .vObj (alistSet fs k x)
  | other => other

/-- The own enumerable string-keyed properties a value contributes under
object spread: objects give their fields, arrays and strings their
indexed elements, every other value nothing. -/
def ownFields : JSValue → List (String × JSValue)
  | .vObj fs => fs
  | .vArr xs => xs.enum.map (fun p => (toString p.1, p.2))
  | .vStr s => s.data.enum.map (fun p => (toString p.1, .vStr ⟨[p.2]⟩))
  | _ => []

/-- Object spread of `b` over `a` inside one object literal: keys of `a`
keep their positions (values overridden by `b` where present), keys only
in `b` are appended in order. -/
def spreadFields (a b : List (String × JSValue)) : List (String × JSValue) :=
  a.map (fun kv => (kv.1, (alistGet b kv.1).getD kv.2)) ++
    b.filter (fun kv => !(alistHas a kv.1))

/-- JavaScript truthiness of a value. -/
def jsTruthy : JSValue → Bool
  | .vUndefined => false
  | .vNull => false
  | .vBool b => b
  | .vNum n => n.truthy
  | .vStr s => decide (s.length ≠ 0)
  | .vArr _ => true
  | .vObj _ => true
  | .vDate _ => true

/-! Predicate library of detailed-type-guards.ts (first document). -/

/-- isString from detailed-type-guards.ts. -/
def isString : JSValue → Bool
  | .vStr _ => true
  | _ => false

/-- isNonEmptyString: a string whose trim has positive length. -/
def isNonEmptyString (v : JSValue) : Bool :=
  match v with
  | .vStr s => decide (0 < (jsTrim s).length)
  | _ => false

/-- isNumber from detailed-type-guards.ts: a number that is neither NaN
nor non-finite. -/
def isNumber : JSValue → Bool
  | .vNum n => !n.isNaNB && n.isFiniteB
  | _ => false

/-- isPositiveNumber: isNumber and strictly above zero. -/
def isPositiveNumber (v : JSValue) : Bool :=
  isNumber v &&
    (match v with
     | .vNum n => n.gtZero
     | _ => false)

/-- isInteger: isNumber and Number.isInteger. -/
def isInteger (v : JSValue) : Bool :=
  isNumber v &&
    (match v with
     | .vNum n => n.isIntegerB
     | _ => false)

/-- isBoolean. -/
def isBoolean : JSValue → Bool
  | .vBool _ => true
  | _ => false

/-- Array.isArray. -/
def isArray : JSValue → Bool
  | .vArr _ => true
  | _ => false

/-- isObject: typeof object, not null, not an array (Dates qualify). -/
def isObject : JSValue → Bool
  | .vObj _ => true
  | .vDate _ => true
  | _ => false

/-- isPlainObject: an object whose prototype is Object.prototype or null
(a Date instance is not plain). -/
def isPlainObject : JSValue → Bool
  | .vObj _ => true
  | _ => false

/-- isDate: a Date instance whose time value is not NaN. -/
def isDate : JSValue → Bool
  | .vDate (some _) => true
  | _ => false

namespace BasicGuards

/-- isNumber of the comprehensive basic-guards document (second document
of detailed-type-guards.ts): typeof number and not NaN, with no
finiteness test. -/
def isNumber : JSValue → Bool
  | .vNum n => !n.isNaNB
  | _ => false

end BasicGuards

/-! Shape validators of detailed-type-guards.ts. -/

/-- isValidEmail: the anchored regex of one or more non-whitespace
non-at characters, an at sign, one or more such characters, a dot, and
one or more such characters.  A string matches exactly when it contains
a single at sign splitting it into a nonempty local part and a
remainder, none of its characters is whitespace, and the remainder
contains a dot that is neither its first nor its last character; the
definition is that characterisation. -/
def isValidEmail (s : String) : Bool :=
  let l := s.data
  let a := l.takeWhile (fun c => c ≠ '@')
  let rest := (l.dropWhile (fun c => c ≠ '@')).drop 1
  decide (l.count '@' = 1) &&
  decide (0 < a.length) && a.all (fun c => !jsWhitespace c) &&
  rest.all (fun c => !jsWhitespace c) &&
  ((rest.drop 1).dropLast.contains '.')

/-- A character of the phone regex class: digit, whitespace, hyphen or
parenthesis. -/
def phoneClassChar (c : Char) : Bool :=
  c.isDigit || jsWhitespace c || c = '-' || c = '(' || c = ')'

/-- isValidPhoneNumber: an optional leading plus then one or more
phone-class characters, and at least ten digit characters overall. -/
def isValidPhoneNumber (s : String) : Bool :=
  (match s.data with
   | [] => false
   | c :: cs =>
       if c = '+' then !cs.isEmpty && cs.all phoneClassChar
       else (c :: cs).all phoneClassChar) &&
  decide (10 ≤ (s.data.filter Char.isDigit).length)

/-- isAddress: five required non-empty string fields. -/
def isAddress (v : JSValue) : Bool :=
  isObject v &&
  (hasField v "street" && isNonEmptyString (jsGet v "street")) &&
  (hasField v "city" && isNonEmptyString (jsGet v "city")) &&
  (hasField v "state" && isNonEmptyString (jsGet v "state")) &&
  (hasField v "zipCode" && isNonEmptyString (jsGet v "zipCode")) &&
  (hasField v "country" && isNonEmptyString (jsGet v "country"))

/-- isContactInfo: required valid email, optional valid phone, optional
valid address. -/
def isContactInfo (v : JSValue) : Bool :=
  isObject v &&
  (hasField v "email" &&
    (match jsGet v "email" with
     | .vStr s => isValidEmail s
     | _ => false)) &&
  (!hasField v "phone" ||
    (match jsGet v "phone" with
     | .vStr s => isValidPhoneNumber s
     | _ => false)) &&
  (!hasField v "address" || isAddress (jsGet v "address"))

/-- Every element of a tags array is a string. -/
def allStringTags : JSValue → Bool
  | .vArr xs => xs.all isString
  | _ => false

/-- isUser of detailed-type-guards.ts: the full boolean entity check,
including the optional-metadata plain-object test. -/
def isUser (v : JSValue) : Bool :=
  isObject v &&
  (hasField v "id" && isNonEmptyString (jsGet v "id")) &&
  (hasField v "name" && isNonEmptyString (jsGet v "name")) &&
  (hasField v "contact" && isContactInfo (jsGet v "contact")) &&
  (hasField v "age" && isPositiveNumber (jsGet v "age") && isInteger (jsGet v "age")) &&
  (hasField v "isActive" && isBoolean (jsGet v "isActive")) &&
  (hasField v "tags" && isArray (jsGet v "tags") && allStringTags (jsGet v "tags")) &&
  (hasField v "createdAt" && isDate (jsGet v "createdAt")) &&
  (hasField v "updatedAt" && isDate (jsGet v "updatedAt")) &&
  (!hasField v "metadata" || isPlainObject (jsGet v "metadata"))

/-! Detailed validation of validateUser. -/

/-- One field-level error of a ValidationResult. -/
structure SimpleValidationError where
  field : String
  message : String
  value : JSValue

/-- The ValidationResult record: on failure `data` is absent. -/
structure ValidationResult where
  isValid : Bool
  data : Option JSValue
  errors : List SimpleValidationError

/-- The eight fields validateUser examines, as an enumeration. -/
inductive UserField where
  | id | name | contact | age | isActive | tags | createdAt | updatedAt
deriving DecidableEq

/-- The property name of a validated field. -/
def UserField.key : UserField → String
  | .id => "id"
  | .name => "name"
  | .contact => "contact"
  | .age => "age"
  | .isActive => "isActive"
  | .tags => "tags"
  | .createdAt => "createdAt"
  | .updatedAt => "updatedAt"

/-- The per-field condition of validateUser (an error is pushed exactly
when it is false): presence of the key conjoined with the field-specific
guard, transcribed from the eight if statements of the source. -/
def fieldCheck (v : JSValue) : UserField → Bool
  | .id => hasField v "id" && isNonEmptyString (jsGet v "id")
  | .name => hasField v "name" && isNonEmptyString (jsGet v "name")
  | .contact => hasField v "contact" && isContactInfo (jsGet v "contact")
  | .age => hasField v "age" && isPositiveNumber (jsGet v "age") && isInteger (jsGet v "age")
  | .isActive => hasField v "isActive" && isBoolean (jsGet v "isActive")
  | .tags => hasField v "tags" && isArray (jsGet v "tags") && allStringTags (jsGet v "tags")
  | .createdAt => hasField v "createdAt" && isDate (jsGet v "createdAt")
  | .updatedAt => hasField v "updatedAt" && isDate (jsGet v "updatedAt")

/-- The error message validateUser uses for each field (a single fixed
message per field, used both for an absent key and for a mistyped
value). -/
def fieldMessage : UserField → String
  | .id => "Missing or invalid id field"
  | .name => "Missing or invalid name field"
  | .contact => "Missing or invalid contact field"
  | .age => "Age must be a positive integer"
  | .isActive => "isActive must be a boolean"
  | .tags => "tags must be an array of strings"
  | .createdAt => "createdAt must be a valid Date"
  | .updatedAt => "updatedAt must be a valid Date"

/-- The offending value recorded with an error: the property value when
the key is present, undefined otherwise. -/
def fieldErrValue (v : JSValue) (f : UserField) : JSValue :=
  if hasField v (f.key) then jsGet v (f.key) else .vUndefined

/-- The (zero- or one-element) error list one field check contributes. -/
def fieldError (v : JSValue) (f : UserField) : List SimpleValidationError :=
  if fieldCheck v f then [] else [⟨f.key, fieldMessage f, fieldErrValue v f⟩]

/-- The source order of the eight field checks. -/
def userFields : List UserField :=
  [.id, .name, .contact, .age, .isActive, .tags, .createdAt, .updatedAt]

/-- validateUser of detailed-type-guards.ts: reject non-objects with a
root error, otherwise collect the error of every failing field (no
short-circuit) and succeed with the value itself when none failed.
The metadata property is never examined here, unlike in isUser. -/
def validateUser (v : JSValue) : ValidationResult :=
  if isObject v then
    let errors := userFields.flatMap (fieldError v)
    if errors.length = 0 then ⟨true, some v, []⟩
    else ⟨false, none, errors⟩
  else ⟨false, none, [⟨"root", "Value is not an object", v⟩]⟩

/-! Result and error model. -/

/-- A classified application error (the details map of a business error
is never set by the store operations and is omitted). -/
inductive AppError where
  | validation : String → String → String → AppError
  | network : Int → String → String → AppError
  | business : String → String → AppError
deriving DecidableEq

/-- The field of a validation error, the code of a business error. -/
def AppError.isValidationKind : AppError → Bool
  | .validation _ _ _ => true
  | _ => false

/-- The two-case operation Result (the optional metadata and context
maps are never set by the store operations and are omitted). -/
inductive UResult (α : Type) where
  | success : α → UResult α
  | failure : AppError → UResult α

/-- Whether a result is a success. -/
def UResult.ok {α : Type} : UResult α → Bool
  | .success _ => true
  | .failure _ => false

/-- The payload of a success. -/
def UResult.dataOf {α : Type} : UResult α → Option α
  | .success d => some d
  | .failure _ => none

/-- The error of a failure. -/
def UResult.errOf {α : Type} : UResult α → Option AppError
  | .success _ => none
  | .failure e => some e

/-! The audited in-memory store of express-type-guards.ts. -/

/-- An audit event of the APIEvent tagged union (the discriminant is the
constructor; each carries its kind-specific payload and the timestamp of
its construction). -/
inductive APIEventM where
  | userCreated : Int → JSValue → String → Option JSValue → APIEventM
  | userUpdated : Int → String → JSValue → JSValue → String → APIEventM
  | userDeleted : Int → String → String → Option String → JSValue → APIEventM
  | userLogin : Int → String → String → String → Bool → Option String → APIEventM

/-- The state owned by a UserService: the keyed entity map and the
append-only event log. -/
structure ServiceState where
  users : List (String × JSValue)
  events : List APIEventM

/-- A freshly constructed service. -/
def emptyService : ServiceState := ⟨[], []⟩

/-- The fresh values createUser draws, in source order: generateId for
the validation object, two Dates for it, then the replacement generateId,
two replacement Dates, and the event timestamp.  generateId always
produces a non-empty string of the shape user_{time}_{suffix}; that
non-emptiness is taken as a hypothesis where a theorem needs it. -/
structure FreshData where
  id1 : String
  d1 : Int
  d2 : Int
  id2 : String
  d3 : Int
  d4 : Int
  d5 : Int

/-- The object createUser validates: the literal of a generated id and
two fresh Dates spread-overridden by the caller input. -/
def createMerged (f : FreshData) (userData : JSValue) : JSValue :=
  .vObj (spreadFields
    [("id", .vStr f.id1), ("createdAt", .vDate (some f.d1)),
     ("updatedAt", .vDate (some f.d2))]
    (ownFields userData))

/-- The string content of a value known to be a string (the map key
taken from user.id after its assignment). -/
def strOf : JSValue → String
  | .vStr s => s
  | _ => ""

/-- UserService.createUser: validate the merged object; on failure
return a single validation error (the field-level list is discarded) and
leave the state untouched; on success overwrite id, createdAt and
updatedAt with fresh system values, insert the entity under its id, and
append a user_created event. -/
def createUser (st : ServiceState) (f : FreshData) (userData : JSValue) :
    ServiceState × UResult JSValue :=
  let validation := validateUser (createMerged f userData)
  if validation.isValid then
    let user0 := validation.data.getD .vUndefined
    let user := setProp (setProp (setProp user0 "id" (.vStr f.id2))
      "createdAt" (.vDate (some f.d3))) "updatedAt" (.vDate (some f.d4))
    (⟨alistSet st.users (strOf (jsGet user "id")) user,
      st.events ++ [.userCreated f.d5 user "admin"
        (some (.vObj [("createdVia", .vStr "api")]))]⟩,
     .success user)
  else
    (st, .failure (.validation "userData" "Invalid user data" "INVALID_USER_DATA"))

/-- UserService.getUserById: reject an empty id, report NOT_FOUND on a
map miss (or a falsy stored value), re-check the stored entity with
isUser and report DATA_CORRUPTION when it fails, otherwise hand back the
stored entity. -/
def getUserById (st : ServiceState) (id : String) : UResult JSValue :=
  if !isNonEmptyString (.vStr id) then
    .failure (.validation "id" "User ID must be a non-empty string" "INVALID_ID")
  else
    match alistGet st.users id with
    | none => .failure (.business "NOT_FOUND" ("User with ID " ++ id ++ " not found"))
    | some user =>
        if !jsTruthy user then
          .failure (.business "NOT_FOUND" ("User with ID " ++ id ++ " not found"))
        else if isUser user then .success user
        else .failure (.business "DATA_CORRUPTION" "Stored user data is corrupted")

/-! Pagination and sorting of UserService.getUsers. -/

/-- A number-or-undefined option field run through the JavaScript
default idiom `options.x || d` (an absent, zero or NaN value falls back
to the default). -/
def jsOrNum (v : Option JSNumber) (d : JSNumber) : JSNumber :=
  match v with
  | none => d
  | some x => if x.truthy then x else d

/-- A string option field run through `options.x || d` (absent or empty
falls back to the default). -/
def jsOrStr (v : Option String) (d : String) : String :=
  match v with
  | none => d
  | some s => if s.length ≠ 0 then s else d

/-- The sort order parameter. -/
inductive SortOrder where
  | asc | desc
deriving DecidableEq

/-- Lexicographic comparison of character lists (JavaScript string
less-than compares code units; for the basic-plane characters the code
handles this coincides with code points). -/
def charListLt : List Char → List Char → Bool
  | [], [] => false
  | [], _ :: _ => true
  | _ :: _, [] => false
  | a :: as, b :: bs =>
      if a < b then true else if b < a then false else charListLt as bs

/-- JavaScript less-than restricted to operands of one type, which is
all the sort comparator ever compares (coercive cross-type comparison is
outside the modelled fragment and returns false).  Dates compare by time
value, an invalid date behaving as NaN. -/
def jsLtV : JSValue → JSValue → Bool
  | .vNum a, .vNum b => a.ltB b
  | .vStr a, .vStr b => charListLt a.data b.data
  | .vDate (some a), .vDate (some b) => decide (a < b)
  | .vBool a, .vBool b => !a && b
  | _, _ => false

/-- The comparator body of getUsers: minus one, one or zero from the two
field comparisons, negated for a descending sort. -/
def sortComparison (sortBy : String) (so : SortOrder) (a b : JSValue) : Int :=
  let av := jsGet a sortBy
  let bv := jsGet b sortBy
  let c : Int := if jsLtV av bv then -1 else if jsLtV bv av then 1 else 0
  if so = .desc then -c else c

/-- Stable insertion of an element into a list already processed by the
comparator: the element passes every earlier element that does not
compare strictly greater, so equal elements keep their original order. -/
def insertCmp {α : Type} (c : α → α → Int) (x : α) : List α → List α
  | [] => [x]
  | y :: ys => if 0 < c y x then x :: y :: ys else y :: insertCmp c x ys

/-- Stable sort by a comparator, inserting the elements in their
original order. -/
def sortByCmp {α : Type} (c : α → α → Int) (xs : List α) : List α :=
  xs.foldl (fun acc x => insertCmp c x acc) []

/-- Array.prototype.sort with the getUsers comparator.  Since ES2019 the
language specification requires sort to be stable and, for a consistent
comparator, to produce the comparator order; the stable insertion sort
below realises exactly that contract. -/
def sortUsers (sortBy : String) (so : SortOrder) (xs : List JSValue) : List JSValue :=
  sortByCmp (sortComparison sortBy so) xs

/-- ToIntegerOrInfinity truncation of a finite number toward zero. -/
def ratTrunc (q : ℚ) : ℤ :=
  if 0 ≤ q then ⌊q⌋ else ⌈q⌉

/-- Resolution of one Array.prototype.slice argument against a length:
NaN becomes zero, a negative index counts from the end, and everything
clamps into the array. -/
def sliceIndex (len : ℕ) (n : JSNumber) : ℕ :=
  match n with
  | .nan => 0
  | .negInf => 0
  | .posInf => len
  | .finite q =>
      let t := ratTrunc q
      if t < 0 then ((len : ℤ) + t).toNat else min t.toNat len

/-- Array.prototype.slice with numeric start and end arguments. -/
def jsSlice (xs : List JSValue) (s e : JSNumber) : List JSValue :=
  (xs.take (sliceIndex xs.length e)).drop (sliceIndex xs.length s)

/-- The success payload of getUsers. -/
structure UsersPage where
  users : List JSValue
  total : ℕ
  page : JSNumber
  limit : JSNumber

/-- UserService.getUsers: default the options with the falsy-fallback
idiom, reject a non-positive page or limit (the only range check the
service performs), filter the stored values through isUser, sort with
the comparator, and slice out the requested page. -/
def getUsers (st : ServiceState) (page limit : Option JSNumber)
    (sortBy : Option String) (sortOrder : Option SortOrder) : UResult UsersPage :=
  let p := jsOrNum page (.finite 1)
  let l := jsOrNum limit (.finite 10)
  let sb := jsOrStr sortBy "createdAt"
  let so := sortOrder.getD .desc
  if isPositiveNumber (.vNum p) && isPositiveNumber (.vNum l) then
    let allUsers := (st.users.map Prod.snd).filter isUser
    let sorted := sortUsers sb so allUsers
    let startIndex := (p.sub (.finite 1)).mul l
    let endIndex := startIndex.add l
    .success ⟨jsSlice sorted startIndex endIndex, allUsers.length, p, l⟩
  else
    .failure (.validation "pagination" "Page and limit must be positive numbers"
      "INVALID_PAGINATION")

/-- The typeof-object test updateUser applies to its updates argument
(arrays and Dates pass it, null does not). -/
def isObjectTypeof : JSValue → Bool
  | .vObj _ => true
  | .vArr _ => true
  | .vDate _ => true
  | _ => false

/-- The merged object updateUser validates: the existing entity spread
first, the caller updates spread over it, then id and createdAt forced
back to the existing values and updatedAt to a fresh Date. -/
def updateMerged (existingUser : JSValue) (updates : JSValue) (now : Int) : JSValue :=
  .vObj (spreadFields
    (spreadFields (ownFields existingUser) (ownFields updates))
    [("id", jsGet existingUser "id"), ("createdAt", jsGet existingUser "createdAt"),
     ("updatedAt", .vDate (some now))])

/-- UserService.updateUser: load the existing entity (propagating any
failure), reject a non-object updates argument, validate the merge with
id and createdAt forcibly preserved, and only on success store the
merged entity and append a user_updated event.  The two Dates drawn are
the new updatedAt and the event timestamp, in that order. -/
def updateUser (st : ServiceState) (id : String) (updates : JSValue)
    (now nowEvt : Int) : ServiceState × UResult JSValue :=
  match getUserById st id with
  | .failure e => (st, .failure e)
  | .success existingUser =>
      if !isObjectTypeof updates then
        (st, .failure (.validation "updates" "Updates must be an object" "INVALID_UPDATES"))
      else
        let updatedUserData := updateMerged existingUser updates now
        let validation := validateUser updatedUserData
        if validation.isValid then
          let updatedUser := validation.data.getD .vUndefined
          (⟨alistSet st.users id updatedUser,
            st.events ++ [.userUpdated nowEvt id updates existingUser "api"]⟩,
           .success updatedUser)
        else
          (st, .failure (.validation "userData" "Updated user data is invalid"
            "INVALID_UPDATED_DATA"))

/-- UserService.deleteUser: load the existing entity (propagating any
failure), remove it, and append a user_deleted event carrying a backup
of the removed entity. -/
def deleteUser (st : ServiceState) (id : String) (nowEvt : Int) :
    ServiceState × UResult String :=
  match getUserById st id with
  | .failure e => (st, .failure e)
  | .success user =>
      (⟨alistDelete st.users id,
        st.events ++ [.userDeleted nowEvt id "api" (some "API request") user]⟩,
       .success ("User " ++ id ++ " deleted successfully"))

/-! Reference-identity model of the store.

The value-level model above cannot express that the object handed to the
caller and the object sitting in the Map are one and the same; this
companion model makes object identity explicit.  The heap is a list of
objects addressed by position; the Map binds an id to an address; the
source lines `this.users.set(user.id, user)` followed by
`return { success: true, data: user }` store and return the same object,
so here they store and return the same address, and
`return { success: true, data: user }` in getUserById likewise returns
the address found in the Map.  A caller mutating the object it received
is a write through that address. -/

/-- The service state with object identity explicit. -/
structure RefServiceState where
  heap : List JSValue
  users : List (String × Nat)

/-- A heap read. -/
def heapGet (h : List JSValue) (a : Nat) : JSValue :=
  h.getD a .vUndefined

/-- createUser in the reference model: same validation and field logic
as createUser, but the success case allocates the entity at a fresh
address and both the Map entry and the returned payload carry that one
address.  The event log plays no part in the aliasing claims and is
omitted here. -/
def refCreateUser (st : RefServiceState) (f : FreshData) (userData : JSValue) :
    RefServiceState × UResult Nat :=
  let validation := validateUser (createMerged f userData)
  if validation.isValid then
    let user0 := validation.data.getD .vUndefined
    let user := setProp (setProp (setProp user0 "id" (.vStr f.id2))
      "createdAt" (.vDate (some f.d3))) "updatedAt" (.vDate (some f.d4))
    let addr := st.heap.length
    (⟨st.heap ++ [user], alistSet st.users (strOf (jsGet user "id")) addr⟩,
     .success addr)
  else
    (st, .failure (.validation "userData" "Invalid user data" "INVALID_USER_DATA"))

/-- getUserById in the reference model: the checks of getUserById read
through the stored address, and the success payload is that very
address. -/
def refGetUserById (st : RefServiceState) (id : String) : UResult Nat :=
  if !isNonEmptyString (.vStr id) then
    .failure (.validation "id" "User ID must be a non-empty string" "INVALID_ID")
  else
    match alistGet st.users id with
    | none => .failure (.business "NOT_FOUND" ("User with ID " ++ id ++ " not found"))
    | some addr =>
        if !jsTruthy (heapGet st.heap addr) then
          .failure (.business "NOT_FOUND" ("User with ID " ++ id ++ " not found"))
        else if isUser (heapGet st.heap addr) then .success addr
        else .failure (.business "DATA_CORRUPTION" "Stored user data is corrupted")

/-- A caller-side mutation of the object behind an address it holds. -/
def refMutate (st : RefServiceState) (a : Nat) (v : JSValue) : RefServiceState :=
  ⟨st.heap.set a v, st.users⟩

/-! Basic lemmas about the association-list and object primitives. -/

theorem alistGet_alistSet_self {β : Type} (l : List (String × β)) (k : String) (v : β) :
    alistGet (alistSet l k v) k = some v := by
  induction l with
  | nil => simp [alistSet, alistGet]
  | cons hd tl ih =>
      obtain ⟨k1, v1⟩ := hd
      by_cases h : k1 = k
      · simp [alistSet, h, alistGet]
      · simp [alistSet, h, alistGet, ih]

theorem alistGet_alistSet_ne {β : Type} (l : List (String × β)) (k k' : String) (v : β)
    (h : k' ≠ k) : alistGet (alistSet l k v) k' = alistGet l k' := by
  have h2 : k ≠ k' := fun hh => h hh.symm
  induction l with
  | nil => simp [alistSet, alistGet, h2]
  | cons hd tl ih =>
      obtain ⟨k1, v1⟩ := hd
      by_cases h1 : k1 = k
      · subst h1
        simp [alistSet, alistGet, h2]
      · simp [alistSet, h1, alistGet, ih]

theorem alistGet_append {β : Type} (xs ys : List (String × β)) (k : String) :
    alistGet (xs ++ ys) k =
      match alistGet xs k with
      | some v => some v
      | none => alistGet ys k := by
  induction xs with
  | nil => simp [alistGet]
  | cons hd tl ih =>
      obtain ⟨k1, v1⟩ := hd
      by_cases h : k1 = k
      · simp [alistGet, h]
      · simp [alistGet, h, ih]

theorem alistGet_mapOverride (a b : List (String × JSValue)) (k : String) :
    alistGet (a.map (fun kv => (kv.1, (alistGet b kv.1).getD kv.2))) k =
      (alistGet a k).map (fun v => (alistGet b k).getD v) := by
  induction a with
  | nil => simp [alistGet]
  | cons hd tl ih =>
      obtain ⟨k1, v1⟩ := hd
      by_cases h : k1 = k
      · subst h
        simp [alistGet]
      · simp [alistGet, h, ih]

theorem alistGet_filterKey {β : Type} (b : List (String × β)) (p : String → Bool)
    (k : String) :
    alistGet (b.filter (fun kv => p kv.1)) k =
      if p k then alistGet b k else none := by
  induction b with
  | nil => simp [alistGet]
  | cons hd tl ih =>
      obtain ⟨k1, v1⟩ := hd
      by_cases h : k1 = k
      · subst h
        by_cases hp : p k1
        · simp [List.filter, hp, alistGet, ih]
        · simp [List.filter, hp, alistGet, ih]
      · by_cases hp : p k1
        · simp [List.filter, hp, alistGet, h, ih]
        · simp [List.filter, hp, alistGet, h, ih]

theorem alistGet_spreadFields (a b : List (String × JSValue)) (k : String) :
    alistGet (spreadFields a b) k =
      match alistGet a k with
      | some v => some ((alistGet b k).getD v)
      | none => alistGet b k := by
  unfold spreadFields
  rw [alistGet_append, alistGet_mapOverride,
    alistGet_filterKey b (fun s => !(alistHas a s)) k]
  cases h : alistGet a k with
  | none => simp [alistHas, h]
  | some v => simp [alistHas, h]

theorem getField_vObj (fs : List (String × JSValue)) (k : String) :
    getField (.vObj fs) k = alistGet fs k := rfl

theorem setProp_vObj (fs : List (String × JSValue)) (k : String) (x : JSValue) :
    setProp (.vObj fs) k x = .vObj (alistSet fs k x) := rfl

/-! Lemmas about validateUser. -/

theorem validateUser_errors_vObj (fs : List (String × JSValue)) :
    (validateUser (.vObj fs)).errors = userFields.flatMap (fieldError (.vObj fs)) := by
  unfold validateUser
  simp only [isObject, if_true]
  split
  · next h =>
      simp only []
      exact (List.length_eq_zero.mp h).symm
  · rfl

theorem validateUser_valid_data (v : JSValue) (h : (validateUser v).isValid = true) :
    (validateUser v).data = some v := by
  unfold validateUser at *
  by_cases ho : isObject v = true
  · simp only [ho, if_true] at *
    split at h
    · split
      · rfl
      · simp_all
    · simp at h
  · simp only [ho] at *
    simp at h

theorem validateUser_invalid_of_error (fs : List (String × JSValue))
    (f : UserField) (hmem : f ∈ userFields) (hf : fieldCheck (.vObj fs) f = false) :
    (validateUser (.vObj fs)).isValid = false ∧
      (⟨f.key, fieldMessage f, fieldErrValue (.vObj fs) f⟩ : SimpleValidationError) ∈
        (validateUser (.vObj fs)).errors := by
  have herr : (⟨f.key, fieldMessage f, fieldErrValue (.vObj fs) f⟩ : SimpleValidationError) ∈
      userFields.flatMap (fieldError (.vObj fs)) := by
    refine List.mem_flatMap.mpr ⟨f, hmem, ?_⟩
    simp [fieldError, hf]
  constructor
  · unfold validateUser
    simp only [isObject, if_true]
    split
    · next h =>
        exfalso
        have := List.length_eq_zero.mp h
        rw [this] at herr
        exact (List.not_mem_nil _) herr
    · rfl
  · rw [validateUser_errors_vObj]
    exact herr

/-! Lemmas about getUserById. -/

theorem isUser_vObj (u : JSValue) (h : isUser u = true) :
    ∃ fs, u = .vObj fs := by
  cases u with
  | vObj fs => exact ⟨fs, rfl⟩
  | vDate t => simp [isUser, hasField, getField] at h
  | vUndefined => simp [isUser, isObject] at h
  | vNull => simp [isUser, isObject] at h
  | vBool b => simp [isUser, isObject] at h
  | vNum n => simp [isUser, isObject] at h
  | vStr s => simp [isUser, isObject] at h
  | vArr xs => simp [isUser, isObject] at h

theorem getUserById_success (st : ServiceState) (id : String) (u : JSValue)
    (h : getUserById st id = .success u) :
    alistGet st.users id = some u ∧ isUser u = true := by
  unfold getUserById at h
  split at h
  · exact absurd h (by simp)
  · split at h
    · exact absurd h (by simp)
    · next user heq =>
        split at h
        · exact absurd h (by simp)
        · split at h
          · next hu => exact ⟨by rw [heq]; injection h with h2; rw [h2], by
              injection h with h2; rw [← h2]; assumption⟩
          · exact absurd h (by simp)

theorem getUserById_success_of (st : ServiceState) (id : String) (u : JSValue)
    (h1 : isNonEmptyString (.vStr id) = true) (h2 : alistGet st.users id = some u)
    (h3 : isUser u = true) : getUserById st id = .success u := by
  obtain ⟨fs, hfs⟩ := isUser_vObj u h3
  unfold getUserById
  rw [h1, h2]
  subst hfs
  simp [jsTruthy, h3]

/-! Lemmas about sorting and pagination. -/

theorem length_insertCmp {α : Type} (c : α → α → Int) (x : α) (ys : List α) :
    (insertCmp c x ys).length = ys.length + 1 := by
  induction ys with
  | nil => rfl
  | cons y ys ih =>
      unfold insertCmp
      split
      · simp
      · simp [ih]

theorem length_sortByCmp {α : Type} (c : α → α → Int) (xs : List α) :
    (sortByCmp c xs).length = xs.length := by
  suffices h : ∀ acc : List α,
      (xs.foldl (fun a x => insertCmp c x a) acc).length = acc.length + xs.length by
    simpa using h []
  induction xs with
  | nil => intro acc; simp
  | cons x xs ih =>
      intro acc
      simp only [List.foldl_cons, ih, length_insertCmp, List.length_cons]
      omega

theorem length_sortUsers (sb : String) (so : SortOrder) (xs : List JSValue) :
    (sortUsers sb so xs).length = xs.length :=
  length_sortByCmp _ xs

/-- Concatenating the ceil(length / l) chunks of size l of a list, in
order, gives back the list. -/
theorem pagesJoin {α : Type} (l : ℕ) (hl : 0 < l) :
    ∀ (n : ℕ) (S : List α), S.length ≤ n →
      ((List.range ((S.length + l - 1) / l)).flatMap
        (fun i => (S.drop (i * l)).take l)) = S := by
  intro n
  induction n with
  | zero =>
      intro S hS
      have h0 : S = [] := List.length_eq_zero.mp (Nat.le_zero.mp hS)
      subst h0
      have : (0 + l - 1) / l = 0 := Nat.div_eq_of_lt (by omega)
      simp [this]
  | succ n ih =>
      intro S hS
      cases S with
      | nil =>
          have : (0 + l - 1) / l = 0 := Nat.div_eq_of_lt (by omega)
          simp [this]
      | cons x T =>
          have hlen : 0 < (x :: T).length := by simp
          have hpages : ((x :: T).length + l - 1) / l = ((x :: T).length - 1) / l + 1 := by
            have h1 : (x :: T).length + l - 1 = ((x :: T).length - 1) + l := by omega
            rw [h1, Nat.add_div_right _ hl]
          have hpages2 : ((x :: T).length - 1) / l
              = (((x :: T).drop l).length + l - 1) / l := by
            rcases le_or_lt (x :: T).length l with hle | hlt
            · have h1 : ((x :: T).length - 1) / l = 0 := Nat.div_eq_of_lt (by omega)
              have h2 : ((x :: T).drop l).length = 0 := by
                simp only [List.length_drop]
                omega
              rw [h1, h2, Nat.div_eq_of_lt (by omega)]
            · have h2 : ((x :: T).drop l).length = (x :: T).length - l := by
                simp only [List.length_drop]
              rw [h2]
              congr 1
              omega
          have hdd : ∀ i : ℕ, (x :: T).drop (Nat.succ i * l) = ((x :: T).drop l).drop (i * l) := by
            intro i
            rw [List.drop_drop]
            congr 1
            rw [Nat.succ_mul]
            omega
          have hrest : ((List.range (((x :: T).length - 1) / l)).flatMap
              (fun i => ((x :: T).drop (Nat.succ i * l)).take l)) = (x :: T).drop l := by
            calc ((List.range (((x :: T).length - 1) / l)).flatMap
                  (fun i => ((x :: T).drop (Nat.succ i * l)).take l))
                = ((List.range ((((x :: T).drop l).length + l - 1) / l)).flatMap
                  (fun i => (((x :: T).drop l).drop (i * l)).take l)) := by
                  rw [← hpages2]
                  exact List.flatMap_congr (fun i _ => by rw [hdd i])
              _ = (x :: T).drop l := by
                  refine ih ((x :: T).drop l) ?_
                  simp only [List.length_drop, List.length_cons] at *
                  omega
          rw [hpages, List.range_succ_eq_map, List.flatMap_cons, List.flatMap_map]
          simp only [Nat.zero_mul, List.drop_zero]
          rw [hrest]
          exact List.take_append_drop l (x :: T)

/-- The full matching set of a store: the stored values that pass
isUser, in insertion order (the filter getUsers applies before
sorting). -/
def allUsersOf (st : ServiceState) : List JSValue :=
  (st.users.map Prod.snd).filter isUser

/-- The sorted full set getUsers paginates, with the option defaulting
getUsers performs. -/
def sortedOf (st : ServiceState) (sb : Option String) (so : Option SortOrder) :
    List JSValue :=
  sortUsers (jsOrStr sb "createdAt") (so.getD .desc) (allUsersOf st)

theorem sliceIndex_natCast (len n : ℕ) :
    sliceIndex len (.finite (n : ℚ)) = min n len := by
  have h1 : ratTrunc ((n : ℕ) : ℚ) = (n : ℤ) := by
    unfold ratTrunc
    rw [if_pos (by positivity), Int.floor_natCast]
  have h2 : ¬ ((n : ℤ) < 0) := by omega
  simp only [sliceIndex, h1, h2, if_false, Int.toNat_natCast]

theorem slice_take_drop {α : Type} (S : List α) (a b : ℕ) :
    (S.take (min (a + b) S.length)).drop (min a S.length) = (S.drop a).take b := by
  have htake : S.take (min (a + b) S.length) = S.take (a + b) := by
    rcases le_total (a + b) S.length with h | h
    · rw [min_eq_left h]
    · rw [min_eq_right h, List.take_length, List.take_of_length_le h]
  rw [htake]
  rcases le_total a S.length with h | h
  · rw [min_eq_left h, List.drop_take]
    congr 1
    omega
  · rw [min_eq_right h]
    have h1 : (S.take (a + b)).length ≤ S.length := by
      simp only [List.length_take]
      omega
    have h2 : S.drop a = [] := List.drop_eq_nil_of_le h
    rw [List.drop_eq_nil_of_le h1, h2, List.take_nil]

theorem truthy_natCast (p : ℕ) (hp : 1 ≤ p) :
    (JSNumber.finite ((p : ℕ) : ℚ)).truthy = true := by
  have h : ((p : ℚ)) ≠ 0 := by
    have h0 : (0 : ℚ) < (p : ℚ) := by exact_mod_cast hp
    exact ne_of_gt h0
  simp [JSNumber.truthy, h]

theorem isPositiveNumber_natCast (p : ℕ) (hp : 1 ≤ p) :
    isPositiveNumber (.vNum (.finite ((p : ℕ) : ℚ))) = true := by
  have h0 : (0 : ℚ) < (p : ℚ) := by exact_mod_cast hp
  simp [isPositiveNumber, isNumber, JSNumber.isNaNB, JSNumber.isFiniteB,
    JSNumber.gtZero, h0]

theorem jsOrNum_some_truthy (x d : JSNumber) (h : x.truthy = true) :
    jsOrNum (some x) d = x := by
  simp [jsOrNum, h]

theorem getUsers_nat (st : ServiceState) (p l : ℕ) (hp : 1 ≤ p) (hl : 1 ≤ l)
    (sb : Option String) (so : Option SortOrder) :
    getUsers st (some (.finite (p : ℚ))) (some (.finite (l : ℚ))) sb so =
      .success ⟨((sortedOf st sb so).drop ((p - 1) * l)).take l,
        (allUsersOf st).length, .finite (p : ℚ), .finite (l : ℚ)⟩ := by
  simp only [getUsers, jsOrNum_some_truthy _ _ (truthy_natCast p hp),
    jsOrNum_some_truthy _ _ (truthy_natCast l hl),
    isPositiveNumber_natCast p hp, isPositiveNumber_natCast l hl,
    Bool.and_self, if_true]
  have hsub : JSNumber.sub (.finite (p : ℚ)) (.finite 1) = .finite ((p : ℚ) - 1) := rfl
  have hmul : JSNumber.mul (.finite ((p : ℚ) - 1)) (.finite (l : ℚ))
      = .finite (((p : ℚ) - 1) * (l : ℚ)) := rfl
  have hadd : JSNumber.add (.finite (((p : ℚ) - 1) * (l : ℚ))) (.finite (l : ℚ))
      = .finite (((p : ℚ) - 1) * (l : ℚ) + (l : ℚ)) := rfl
  have hcast1 : ((p : ℚ) - 1) * (l : ℚ) = (((p - 1) * l : ℕ) : ℚ) := by
    push_cast [Nat.cast_sub hp]
    ring
  have hcast2 : ((((p - 1) * l : ℕ) : ℚ)) + (l : ℚ) = ((((p - 1) * l + l) : ℕ) : ℚ) := by
    push_cast
    ring
  rw [hsub, hmul, hcast1]
  rw [show JSNumber.add (.finite (((p - 1) * l : ℕ) : ℚ)) (.finite (l : ℚ))
      = .finite ((((p - 1) * l : ℕ) : ℚ) + (l : ℚ)) from rfl]
  rw [hcast2]
  unfold jsSlice
  rw [sliceIndex_natCast, sliceIndex_natCast]
  rw [show sortUsers (jsOrStr sb "createdAt") (so.getD .desc)
        ((st.users.map Prod.snd).filter isUser) = sortedOf st sb so from rfl]
  rw [show ((st.users.map Prod.snd).filter isUser) = allUsersOf st from rfl]
  have hlen : (sortedOf st sb so).length = (allUsersOf st).length :=
    length_sortUsers _ _ _
  rw [← hlen]
  rw [slice_take_drop]

/-! Concrete fixtures used by witnesses and counterexamples. -/

/-- A minimal valid ContactInfo value. -/
def annContact : JSValue := .vObj [("email", .vStr "a@b.com")]

/-- A well-formed caller input for createUser (the concrete scenario of
the specification). -/
def annInput : JSValue := .vObj
  [("name", .vStr "Ann"), ("contact", annContact), ("age", .vNum (.finite 30)),
   ("isActive", .vBool true), ("tags", .vArr [.vStr "x"])]

/-- The same input with a numeric metadata property (not a plain
object). -/
def metaInput : JSValue := .vObj
  [("name", .vStr "Ann"), ("contact", annContact), ("age", .vNum (.finite 30)),
   ("isActive", .vBool true), ("tags", .vArr [.vStr "x"]),
   ("metadata", .vNum (.finite 42))]

/-- The same input with age minus one. -/
def ageInput : JSValue := .vObj
  [("name", .vStr "Ann"), ("contact", annContact), ("age", .vNum (.finite (-1))),
   ("isActive", .vBool true), ("tags", .vArr [.vStr "x"])]

/-- A full entity object with every required field valid except that the
age key is absent. -/
def missAgeInput : JSValue := .vObj
  [("id", .vStr "user_9"), ("name", .vStr "Ann"), ("contact", annContact),
   ("isActive", .vBool true), ("tags", .vArr [.vStr "x"]),
   ("createdAt", .vDate (some 1)), ("updatedAt", .vDate (some 2))]

/-- Fresh system values for a createUser call. -/
def f0 : FreshData := ⟨"user_1", 1, 2, "user_2", 3, 3, 5⟩

/-- Fresh system values whose two replacement Date draws land in
different milliseconds. -/
def f1 : FreshData := ⟨"user_1", 1, 2, "user_2", 10, 11, 12⟩

/-! Claim C9. -/

/-- Claim C9, counterexample: the claim asserts that isNumber rejects
Infinity at both its source sites, but the isNumber of the comprehensive
basic-guards document omits the isFinite test and accepts Infinity
(while the detailed isNumber rejects it). -/
theorem c9_counterexample :
    BasicGuards.isNumber (.vNum .posInf) = true ∧
    isNumber (.vNum .posInf) = false := by
  exact ⟨rfl, rfl⟩

/-- Claim C9, amended: the detailed isNumber accepts exactly the finite
non-NaN numbers, rejecting NaN and both infinities; the basic-guards
isNumber only rejects NaN and accepts the infinities. -/
theorem c9_isNumber_semantics :
    (∀ v : JSValue, isNumber v = true ↔ ∃ q : ℚ, v = .vNum (.finite q)) ∧
    (∀ v : JSValue, BasicGuards.isNumber v = true ↔
      ∃ n : JSNumber, v = .vNum n ∧ n ≠ .nan) := by
  constructor
  · intro v
    cases v with
    | vNum n =>
        cases n <;>
          simp [isNumber, JSNumber.isNaNB, JSNumber.isFiniteB]
    | vUndefined => simp [isNumber]
    | vNull => simp [isNumber]
    | vBool b => simp [isNumber]
    | vStr s => simp [isNumber]
    | vArr xs => simp [isNumber]
    | vObj fs => simp [isNumber]
    | vDate t => simp [isNumber]
  · intro v
    cases v with
    | vNum n =>
        cases n <;>
          simp [BasicGuards.isNumber, JSNumber.isNaNB]
    | vUndefined => simp [BasicGuards.isNumber]
    | vNull => simp [BasicGuards.isNumber]
    | vBool b => simp [BasicGuards.isNumber]
    | vStr s => simp [BasicGuards.isNumber]
    | vArr xs => simp [BasicGuards.isNumber]
    | vObj fs => simp [BasicGuards.isNumber]
    | vDate t => simp [BasicGuards.isNumber]

/-! Claim C10. -/

theorem jsTrim_ws_empty (s : String) (hws : ∀ c ∈ s.data, jsWhitespace c = true) :
    (jsTrim s).length = 0 := by
  have h1 : s.data.dropWhile jsWhitespace = [] := List.dropWhile_eq_nil_iff.mpr hws
  simp [jsTrim, jsTrimList, h1, String.length]

/-- Claim C10: a whitespace-only string fails isNonEmptyString, and
consequently validateUser rejects an object whose name or id property is
a whitespace-only string, with an error entry for that field. -/
theorem c10_whitespace_only_rejected (s : String) (fields : List (String × JSValue))
    (hws : ∀ c ∈ s.data, jsWhitespace c = true) :
    isNonEmptyString (.vStr s) = false ∧
    (alistGet fields "name" = some (.vStr s) →
      (validateUser (.vObj fields)).isValid = false ∧
      ((validateUser (.vObj fields)).errors.any (fun e => e.field == "name")) = true) ∧
    (alistGet fields "id" = some (.vStr s) →
      (validateUser (.vObj fields)).isValid = false ∧
      ((validateUser (.vObj fields)).errors.any (fun e => e.field == "id")) = true) := by
  have hne : isNonEmptyString (.vStr s) = false := by
    simp [isNonEmptyString, jsTrim_ws_empty s hws]
  refine ⟨hne, ?_, ?_⟩
  · intro hname
    have hcf : fieldCheck (.vObj fields) .name = false := by
      simp [fieldCheck, jsGet, getField, hname, hne]
    have h := validateUser_invalid_of_error fields .name (by decide) hcf
    refine ⟨h.1, ?_⟩
    refine List.any_eq_true.mpr ⟨_, h.2, ?_⟩
    simp [UserField.key]
  · intro hid
    have hcf : fieldCheck (.vObj fields) .id = false := by
      simp [fieldCheck, jsGet, getField, hid, hne]
    have h := validateUser_invalid_of_error fields .id (by decide) hcf
    refine ⟨h.1, ?_⟩
    refine List.any_eq_true.mpr ⟨_, h.2, ?_⟩
    simp [UserField.key]

/-- Fields with whitespace-only name, used to witness C10. -/
def wsNameFields : List (String × JSValue) :=
  [("id", .vStr "user_9"), ("name", .vStr " "), ("contact", annContact),
   ("age", .vNum (.finite 30)), ("isActive", .vBool true),
   ("tags", .vArr [.vStr "x"]),
   ("createdAt", .vDate (some 1)), ("updatedAt", .vDate (some 2))]

/-- Witness for claim C10 at the one-space string and a concrete
object. -/
theorem c10_witness :
    isNonEmptyString (.vStr " ") = false ∧
    ((validateUser (.vObj wsNameFields)).isValid = false ∧
      ((validateUser (.vObj wsNameFields)).errors.any (fun e => e.field == "name")) = true) := by
  have h := c10_whitespace_only_rejected " " wsNameFields (by decide)
  exact ⟨h.1, h.2.1 (by rfl)⟩

/-! Claim C1. -/

/-- Claim C1: the code violates the invariant.  validateUser never
examines the metadata property, while isUser requires an optional
metadata to be a plain object, so createUser persists an entity carrying
a numeric metadata even though that entity fails the full isUser check —
and the store's own read path then classifies it as DATA_CORRUPTION.
Evaluated here at the concrete failing input. -/
theorem c1_metadata_gap :
    (createUser emptyService f0 metaInput).2.ok = true ∧
    ((createUser emptyService f0 metaInput).1.users.map Prod.snd).all isUser = false ∧
    (getUserById (createUser emptyService f0 metaInput).1 "user_2").errOf
      = some (.business "DATA_CORRUPTION" "Stored user data is corrupted") := by
  exact ⟨by decide, by decide, by decide⟩

/-! Claim C4. -/

theorem fieldCheck_eq_false_of_missing (v : JSValue) (F : UserField)
    (h : hasField v F.key = false) : fieldCheck v F = false := by
  cases F <;> simp [fieldCheck, UserField.key] at * <;> simp [h]

theorem flatMap_single {α β : Type} [DecidableEq α] (L : List α) (F : α)
    (f : α → List β) (hF : L.count F = 1) (hoff : ∀ G ∈ L, G ≠ F → f G = []) :
    L.flatMap f = f F := by
  induction L with
  | nil => simp at hF
  | cons x xs ih =>
      by_cases hx : x = F
      · subst hx
        have hnot : x ∉ xs := by
          rw [List.count_cons_self] at hF
          have h0 : xs.count x = 0 := by omega
          exact List.count_eq_zero.mp h0
        have hnil : xs.flatMap f = [] := by
          rw [List.flatMap_eq_nil_iff]
          intro G hG
          exact hoff G (List.mem_cons_of_mem _ hG) (fun he => hnot (he ▸ hG))
        simp [List.flatMap_cons, hnil]
      · have hx0 : f x = [] := hoff x (List.mem_cons_self x xs) hx
        have hF2 : xs.count F = 1 := by
          rw [List.count_cons] at hF
          simpa [hx] using hF
        rw [List.flatMap_cons, hx0, List.nil_append]
        exact ih hF2 (fun G hG hne => hoff G (List.mem_cons_of_mem _ hG) hne)

/-- Claim C4, counterexample: for an input missing the age field with
every other field valid, the single error entry for age carries the
type-style message of the age check, not a "missing or invalid"
message. -/
theorem c4_counterexample :
    ((validateUser missAgeInput).errors.map (fun e => (e.field, e.message)))
      = [("age", "Age must be a positive integer")] ∧
    ("Age must be a positive integer" ≠ "Missing or invalid age field") := by
  exact ⟨by rfl, by decide⟩

/-- Claim C4, amended: for every object missing required field F with
every other field check passing, validateUser reports exactly one error,
whose field is F and whose value is undefined; its message is the fixed
per-field message of the source, which reads "missing or invalid" only
for the id, name and contact fields — for age, isActive, tags, createdAt
and updatedAt the same type-requirement message is used whether the
field is absent or mistyped. -/
theorem c4_missing_field_single_error (F : UserField)
    (fields : List (String × JSValue))
    (hmiss : hasField (.vObj fields) F.key = false)
    (hrest : ∀ G ∈ userFields, G ≠ F → fieldCheck (.vObj fields) G = true) :
    (validateUser (.vObj fields)).errors
      = [⟨F.key, fieldMessage F, .vUndefined⟩] ∧
    ((fieldMessage F = "Missing or invalid " ++ F.key ++ " field") ↔
      (F = .id ∨ F = .name ∨ F = .contact)) := by
  have hcf : fieldCheck (.vObj fields) F = false :=
    fieldCheck_eq_false_of_missing _ F hmiss
  have hval : fieldErrValue (.vObj fields) F = .vUndefined := by
    unfold fieldErrValue
    simp [hmiss]
  constructor
  · rw [validateUser_errors_vObj]
    have hcount : userFields.count F = 1 := by cases F <;> decide
    have hoff : ∀ G ∈ userFields, G ≠ F → fieldError (.vObj fields) G = [] := by
      intro G hG hne
      simp [fieldError, hrest G hG hne]
    rw [flatMap_single userFields F _ hcount hoff]
    simp [fieldError, hcf, hval]
  · cases F <;> simp [fieldMessage, UserField.key]

/-- Witness for claim C4 at the concrete input missing age. -/
theorem c4_witness :
    (validateUser missAgeInput).errors
      = [⟨UserField.age.key, fieldMessage .age, .vUndefined⟩] ∧
    ((fieldMessage .age = "Missing or invalid " ++ UserField.age.key ++ " field") ↔
      (UserField.age = .id ∨ UserField.age = .name ∨ UserField.age = .contact)) := by
  exact c4_missing_field_single_error .age
    [("id", .vStr "user_9"), ("name", .vStr "Ann"), ("contact", annContact),
     ("isActive", .vBool true), ("tags", .vArr [.vStr "x"]),
     ("createdAt", .vDate (some 1)), ("updatedAt", .vDate (some 2))]
    (by decide) (by decide)

/-! Claim C3. -/

/-- Claim C3, counterexample: the failure createUser returns for an
age of minus one carries a single validation error whose field is
userData, not age — the field-level error list of the detailed
validation is discarded by the service. -/
theorem c3_counterexample :
    (createUser emptyService f0 ageInput).2.errOf
      = some (.validation "userData" "Invalid user data" "INVALID_USER_DATA") ∧
    ("userData" ≠ "age") := by
  exact ⟨by decide, by decide⟩

/-- Claim C3, amended: for every createUser call whose input carries age
minus one, the operation fails with the single coarse validation error
for field userData (code INVALID_USER_DATA), the underlying detailed
validation of the merged object does contain an error entry for field
age, and the state — store and audit log — is left untouched. -/
theorem c3_age_minus_one (st : ServiceState) (f : FreshData) (userData : JSValue)
    (hage : alistGet (ownFields userData) "age" = some (.vNum (.finite (-1)))) :
    (createUser st f userData).1 = st ∧
    (createUser st f userData).2
      = .failure (.validation "userData" "Invalid user data" "INVALID_USER_DATA") ∧
    ((validateUser (createMerged f userData)).errors.any
      (fun e => e.field == "age")) = true := by
  have hbase : alistGet
      [("id", JSValue.vStr f.id1), ("createdAt", JSValue.vDate (some f.d1)),
       ("updatedAt", JSValue.vDate (some f.d2))] "age" = (none : Option JSValue) := by
    simp [alistGet]
  have hmerged : getField (createMerged f userData) "age"
      = some (.vNum (.finite (-1))) := by
    unfold createMerged
    rw [getField_vObj, alistGet_spreadFields, hbase, hage]
  have hcf : fieldCheck (createMerged f userData) .age = false := by
    simp only [fieldCheck, hasField, hmerged, jsGet, Option.isSome_some,
      Option.getD_some, Bool.true_and]
    simp [isPositiveNumber, isNumber, JSNumber.isNaNB, JSNumber.isFiniteB,
      JSNumber.gtZero]
  have hinv := validateUser_invalid_of_error
    (spreadFields
      [("id", JSValue.vStr f.id1), ("createdAt", JSValue.vDate (some f.d1)),
       ("updatedAt", JSValue.vDate (some f.d2))] (ownFields userData))
    .age (by decide) hcf
  have hvalid : (validateUser (createMerged f userData)).isValid = false := hinv.1
  refine ⟨?_, ?_, ?_⟩
  · simp [createUser, hvalid]
  · simp [createUser, hvalid]
  · exact List.any_eq_true.mpr ⟨_, hinv.2, by simp [UserField.key]⟩

/-- Witness for claim C3 at the concrete age input of the
specification scenario. -/
theorem c3_witness :
    (createUser emptyService f0 ageInput).1 = emptyService ∧
    (createUser emptyService f0 ageInput).2
      = .failure (.validation "userData" "Invalid user data" "INVALID_USER_DATA") ∧
    ((validateUser (createMerged f0 ageInput)).errors.any
      (fun e => e.field == "age")) = true := by
  exact c3_age_minus_one emptyService f0 ageInput (by rfl)

/-! Claim C5. -/

/-- Claim C5, counterexample: the claim says a page below one or a limit
above one hundred is rejected with a validation error, but getUsers with
page zero succeeds (the JavaScript falsy-default idiom silently replaces
zero by the default page one) and getUsers with limit one hundred one
succeeds with that limit (the service checks positivity only, with no
upper bound). -/
theorem c5_counterexample :
    (getUsers emptyService (some (.finite 0)) none none none).ok = true ∧
    ((getUsers emptyService (some (.finite 0)) none none none).dataOf.map
      (fun d => d.page)) = some (.finite 1) ∧
    (getUsers emptyService none (some (.finite 101)) none none).ok = true ∧
    ((getUsers emptyService none (some (.finite 101)) none none).dataOf.map
      (fun d => d.limit)) = some (.finite 101) := by
  exact ⟨by decide, by decide, by decide, by decide⟩

/-- Claim C5, amended: getUsers fails — always with the one validation
error for field pagination — exactly when the page or the limit, after
the falsy-fallback defaulting (absent, zero or NaN become the defaults
one and ten), is not a positive finite number.  A zero page is therefore
silently replaced by page one, and any limit above one hundred is
accepted; only the service's positivity check can reject. -/
theorem c5_range_check (st : ServiceState) (page limit : Option JSNumber)
    (sb : Option String) (so : Option SortOrder) :
    (getUsers st page limit sb so
        = .failure (.validation "pagination" "Page and limit must be positive numbers"
            "INVALID_PAGINATION"))
      ↔ ¬(isPositiveNumber (.vNum (jsOrNum page (.finite 1))) = true
            ∧ isPositiveNumber (.vNum (jsOrNum limit (.finite 10))) = true) := by
  by_cases hc : (isPositiveNumber (JSValue.vNum (jsOrNum page (JSNumber.finite 1))) &&
      isPositiveNumber (JSValue.vNum (jsOrNum limit (JSNumber.finite 10)))) = true
  · have hne : getUsers st page limit sb so
        ≠ .failure (.validation "pagination" "Page and limit must be positive numbers"
            "INVALID_PAGINATION") := by
      simp only [getUsers]
      rw [if_pos hc]
      simp
    rw [Bool.and_eq_true] at hc
    simp [hne, hc.1, hc.2]
  · have hgu : getUsers st page limit sb so
        = .failure (.validation "pagination" "Page and limit must be positive numbers"
            "INVALID_PAGINATION") := by
      simp only [getUsers]
      rw [if_neg hc]
    rw [hgu]
    constructor
    · intro _ hcontra
      refine hc ?_
      rw [Bool.and_eq_true]
      exact hcontra
    · intro _
      rfl

/-! Claim C6. -/

/-- The forced-override list of an updateUser merge. -/
def updOverrides (existingUser : JSValue) (now : Int) : List (String × JSValue) :=
  [("id", jsGet existingUser "id"), ("createdAt", jsGet existingUser "createdAt"),
   ("updatedAt", .vDate (some now))]

theorem updateMerged_eq (existingUser updates : JSValue) (now : Int) :
    updateMerged existingUser updates now =
      .vObj (spreadFields (spreadFields (ownFields existingUser) (ownFields updates))
        (updOverrides existingUser now)) := rfl

theorem getField_updateMerged_id (existingUser updates : JSValue) (now : Int) :
    getField (updateMerged existingUser updates now) "id"
      = some (jsGet existingUser "id") := by
  rw [updateMerged_eq, getField_vObj, alistGet_spreadFields]
  have hB : alistGet (updOverrides existingUser now) "id"
      = some (jsGet existingUser "id") := by
    simp [updOverrides, alistGet]
  cases hA : alistGet
      (spreadFields (ownFields existingUser) (ownFields updates)) "id" <;>
    simp [hB]

theorem getField_updateMerged_createdAt (existingUser updates : JSValue) (now : Int) :
    getField (updateMerged existingUser updates now) "createdAt"
      = some (jsGet existingUser "createdAt") := by
  rw [updateMerged_eq, getField_vObj, alistGet_spreadFields]
  have hB : alistGet (updOverrides existingUser now) "createdAt"
      = some (jsGet existingUser "createdAt") := by
    simp [updOverrides, alistGet]
  cases hA : alistGet
      (spreadFields (ownFields existingUser) (ownFields updates)) "createdAt" <;>
    simp [hB]

/-- Claim C6: a successful updateUser stores and returns an entity whose
id and createdAt properties equal those of the stored entity it loaded,
whatever the partial update input contained for them. -/
theorem c6_update_preserves_id_createdAt (st : ServiceState) (id : String)
    (updates : JSValue) (now nowEvt : Int)
    (hok : (updateUser st id updates now nowEvt).2.ok = true) :
    (alistGet st.users id).isSome = true ∧
    jsGet ((updateUser st id updates now nowEvt).2.dataOf.getD .vUndefined) "id"
      = jsGet ((alistGet st.users id).getD .vUndefined) "id" ∧
    jsGet ((updateUser st id updates now nowEvt).2.dataOf.getD .vUndefined) "createdAt"
      = jsGet ((alistGet st.users id).getD .vUndefined) "createdAt" ∧
    alistGet (updateUser st id updates now nowEvt).1.users id
      = some ((updateUser st id updates now nowEvt).2.dataOf.getD .vUndefined) := by
  cases hgu : getUserById st id with
  | failure e =>
      exfalso
      rw [updateUser] at hok
      rw [hgu] at hok
      simp [UResult.ok] at hok
  | success ex =>
      obtain ⟨hlook, hisuser⟩ := getUserById_success st id ex hgu
      by_cases hobj : isObjectTypeof updates = true
      · by_cases hval : (validateUser (updateMerged ex updates now)).isValid = true
        · have hdata := validateUser_valid_data _ hval
          have hres : updateUser st id updates now nowEvt =
              (⟨alistSet st.users id (updateMerged ex updates now),
                st.events ++ [.userUpdated nowEvt id updates ex "api"]⟩,
               .success (updateMerged ex updates now)) := by
            rw [updateUser, hgu]
            simp [hobj, hval, hdata]
          rw [hres]
          refine ⟨by simp [hlook], ?_, ?_, ?_⟩
          · simp only [UResult.dataOf, Option.getD_some, hlook]
            simp [jsGet, getField_updateMerged_id]
          · simp only [UResult.dataOf, Option.getD_some, hlook]
            simp [jsGet, getField_updateMerged_createdAt]
          · simp [alistGet_alistSet_self, UResult.dataOf]
        · exfalso
          rw [updateUser, hgu] at hok
          simp [hobj, hval, UResult.ok] at hok
      · exfalso
        rw [updateUser, hgu] at hok
        simp [hobj, UResult.ok] at hok

/-- The store state after creating the well-formed Ann entity. -/
def annStore : ServiceState := (createUser emptyService f0 annInput).1

/-- A hostile partial update: a new age plus attempts to overwrite id
and createdAt. -/
def hostileUpd : JSValue := .vObj
  [("age", .vNum (.finite 31)), ("id", .vStr "evil"), ("createdAt", .vDate (some 999))]

/-- Witness for claim C6: updating Ann with a new age and hostile id and
createdAt values succeeds and preserves both protected fields. -/
theorem c6_witness :
    (alistGet annStore.users "user_2").isSome = true ∧
    jsGet ((updateUser annStore "user_2" hostileUpd 7 8).2.dataOf.getD .vUndefined) "id"
      = jsGet ((alistGet annStore.users "user_2").getD .vUndefined) "id" ∧
    jsGet ((updateUser annStore "user_2" hostileUpd 7 8).2.dataOf.getD .vUndefined) "createdAt"
      = jsGet ((alistGet annStore.users "user_2").getD .vUndefined) "createdAt" ∧
    alistGet (updateUser annStore "user_2" hostileUpd 7 8).1.users "user_2"
      = some ((updateUser annStore "user_2" hostileUpd 7 8).2.dataOf.getD .vUndefined) := by
  exact c6_update_preserves_id_createdAt annStore "user_2" hostileUpd 7 8 (by decide)

/-! Claim C7. -/

/-- The base literal of the createUser merge (generated id and two fresh
Dates, before the caller input is spread over it). -/
def createBase (f : FreshData) : List (String × JSValue) :=
  [("id", .vStr f.id1), ("createdAt", .vDate (some f.d1)),
   ("updatedAt", .vDate (some f.d2))]

theorem createMerged_eq (f : FreshData) (userData : JSValue) :
    createMerged f userData = .vObj (spreadFields (createBase f) (ownFields userData)) := rfl

/-- The entity createUser stores on success: the validated merge with
the replacement id and the two replacement Dates assigned. -/
def finalUserOf (f : FreshData) (userData : JSValue) : JSValue :=
  setProp (setProp (setProp (createMerged f userData) "id" (.vStr f.id2))
    "createdAt" (.vDate (some f.d3))) "updatedAt" (.vDate (some f.d4))

theorem finalUserOf_eq (f : FreshData) (userData : JSValue) :
    finalUserOf f userData =
      .vObj (alistSet (alistSet (alistSet
        (spreadFields (createBase f) (ownFields userData))
        "id" (.vStr f.id2)) "createdAt" (.vDate (some f.d3)))
        "updatedAt" (.vDate (some f.d4))) := rfl

theorem getField_finalUserOf_id (f : FreshData) (userData : JSValue) :
    getField (finalUserOf f userData) "id" = some (.vStr f.id2) := by
  rw [finalUserOf_eq, getField_vObj]
  rw [alistGet_alistSet_ne _ _ _ _ (by decide)]
  rw [alistGet_alistSet_ne _ _ _ _ (by decide)]
  rw [alistGet_alistSet_self]

theorem getField_finalUserOf_createdAt (f : FreshData) (userData : JSValue) :
    getField (finalUserOf f userData) "createdAt" = some (.vDate (some f.d3)) := by
  rw [finalUserOf_eq, getField_vObj]
  rw [alistGet_alistSet_ne _ _ _ _ (by decide)]
  rw [alistGet_alistSet_self]

theorem getField_finalUserOf_updatedAt (f : FreshData) (userData : JSValue) :
    getField (finalUserOf f userData) "updatedAt" = some (.vDate (some f.d4)) := by
  rw [finalUserOf_eq, getField_vObj]
  rw [alistGet_alistSet_self]

theorem getField_finalUserOf_other (f : FreshData) (userData : JSValue) (k : String)
    (hk1 : k ≠ "id") (hk2 : k ≠ "createdAt") (hk3 : k ≠ "updatedAt") :
    getField (finalUserOf f userData) k = alistGet (ownFields userData) k := by
  rw [finalUserOf_eq, getField_vObj]
  rw [alistGet_alistSet_ne _ _ _ _ hk3]
  rw [alistGet_alistSet_ne _ _ _ _ hk2]
  rw [alistGet_alistSet_ne _ _ _ _ hk1]
  rw [alistGet_spreadFields]
  have hbase : alistGet (createBase f) k = none := by
    simp [createBase, alistGet, Ne.symm hk1, Ne.symm hk2, Ne.symm hk3]
  rw [hbase]

/-- On a passing validation, createUser stores the final entity under
the fresh id and returns exactly that entity. -/
theorem createUser_success_char (st : ServiceState) (f : FreshData) (userData : JSValue)
    (hval : (validateUser (createMerged f userData)).isValid = true) :
    createUser st f userData =
      (⟨alistSet st.users f.id2 (finalUserOf f userData),
        st.events ++ [.userCreated f.d5 (finalUserOf f userData) "admin"
          (some (.vObj [("createdVia", .vStr "api")]))]⟩,
       .success (finalUserOf f userData)) := by
  have hdata := validateUser_valid_data _ hval
  have hkey : strOf (jsGet (finalUserOf f userData) "id") = f.id2 := by
    simp [jsGet, getField_finalUserOf_id, strOf]
  simp only [createUser, hval, if_true, hdata, Option.getD_some]
  rw [show setProp (setProp (setProp (createMerged f userData) "id" (.vStr f.id2))
      "createdAt" (.vDate (some f.d3))) "updatedAt" (.vDate (some f.d4))
      = finalUserOf f userData from rfl]
  rw [hkey]

/-- JavaScript less-or-equal on two valid Dates. -/
def dateLeB : JSValue → JSValue → Bool
  | .vDate (some x), .vDate (some y) => decide (x ≤ y)
  | _, _ => false

/-- Claim C7, amended: a successful createUser (with a non-empty fresh
id, and an entity that passes the full isUser check, as a well-formed
input guarantees) stores an entity that getUserById hands back
unchanged; the entity keeps every caller field except the
system-assigned id, createdAt and updatedAt; those timestamps are the
third and fourth Date draws of the call — two separate clock reads — so
updatedAt is at least createdAt under a monotone clock, but equality
with createdAt is not guaranteed. -/
theorem c7_create_then_get (st : ServiceState) (f : FreshData) (userData : JSValue)
    (hok : (createUser st f userData).2.ok = true)
    (hid2 : isNonEmptyString (.vStr f.id2) = true)
    (hcorr : isUser ((createUser st f userData).2.dataOf.getD .vUndefined) = true) :
    getField ((createUser st f userData).2.dataOf.getD .vUndefined) "id"
      = some (.vStr f.id2) ∧
    jsGet ((createUser st f userData).2.dataOf.getD .vUndefined) "createdAt"
      = .vDate (some f.d3) ∧
    jsGet ((createUser st f userData).2.dataOf.getD .vUndefined) "updatedAt"
      = .vDate (some f.d4) ∧
    getUserById (createUser st f userData).1 f.id2
      = .success ((createUser st f userData).2.dataOf.getD .vUndefined) ∧
    (∀ k, k ≠ "id" → k ≠ "createdAt" → k ≠ "updatedAt" →
        getField ((createUser st f userData).2.dataOf.getD .vUndefined) k
          = alistGet (ownFields userData) k) ∧
    (f.d3 ≤ f.d4 →
      dateLeB (jsGet ((createUser st f userData).2.dataOf.getD .vUndefined) "createdAt")
        (jsGet ((createUser st f userData).2.dataOf.getD .vUndefined) "updatedAt")
          = true) := by
  by_cases hval : (validateUser (createMerged f userData)).isValid = true
  · have hchar := createUser_success_char st f userData hval
    rw [hchar] at hcorr ⊢
    simp only [UResult.dataOf, Option.getD_some] at hcorr ⊢
    refine ⟨getField_finalUserOf_id f userData, ?_, ?_, ?_, ?_, ?_⟩
    · simp [jsGet, getField_finalUserOf_createdAt]
    · simp [jsGet, getField_finalUserOf_updatedAt]
    · exact getUserById_success_of _ f.id2 _ hid2 (alistGet_alistSet_self _ _ _) hcorr
    · intro k hk1 hk2 hk3
      exact getField_finalUserOf_other f userData k hk1 hk2 hk3
    · intro hmono
      simp [jsGet, getField_finalUserOf_createdAt, getField_finalUserOf_updatedAt,
        dateLeB, hmono]
  · exfalso
    rw [createUser] at hok
    simp only [hval] at hok
    simp [UResult.ok] at hok

/-- Claim C7, counterexample: with the two replacement Date draws
landing in different milliseconds, createUser succeeds and the stored
entity's updatedAt differs from its createdAt, refuting the claimed
equality immediately after creation. -/
theorem c7_counterexample :
    (createUser emptyService f1 annInput).2.ok = true ∧
    jsGet ((createUser emptyService f1 annInput).2.dataOf.getD .vUndefined) "createdAt"
      = .vDate (some 10) ∧
    jsGet ((createUser emptyService f1 annInput).2.dataOf.getD .vUndefined) "updatedAt"
      = .vDate (some 11) ∧
    ((JSValue.vDate (some 10)) ≠ .vDate (some 11)) := by
  refine ⟨by decide, by rfl, by rfl, by simp⟩

/-- Witness for claim C7 at the well-formed Ann input with coinciding
Date draws. -/
theorem c7_witness :
    getField ((createUser emptyService f0 annInput).2.dataOf.getD .vUndefined) "id"
      = some (.vStr "user_2") ∧
    getUserById (createUser emptyService f0 annInput).1 "user_2"
      = .success ((createUser emptyService f0 annInput).2.dataOf.getD .vUndefined) ∧
    getField ((createUser emptyService f0 annInput).2.dataOf.getD .vUndefined) "name"
      = alistGet (ownFields annInput) "name" ∧
    dateLeB (jsGet ((createUser emptyService f0 annInput).2.dataOf.getD .vUndefined) "createdAt")
      (jsGet ((createUser emptyService f0 annInput).2.dataOf.getD .vUndefined) "updatedAt")
        = true := by
  have h := c7_create_then_get emptyService f0 annInput (by decide) (by decide) (by decide)
  exact ⟨h.1, h.2.2.2.1, h.2.2.2.2.1 "name" (by decide) (by decide) (by decide),
    h.2.2.2.2.2 (by decide)⟩

/-! Claim C2. -/

theorem jsTruthy_of_isUser (v : JSValue) (h : isUser v = true) : jsTruthy v = true := by
  obtain ⟨fs, hfs⟩ := isUser_vObj v h
  subst hfs
  rfl

theorem refGetUserById_success (st : RefServiceState) (id : String) (a : Nat)
    (h : refGetUserById st id = .success a) :
    alistGet st.users id = some a ∧ isUser (heapGet st.heap a) = true ∧
      isNonEmptyString (.vStr id) = true := by
  unfold refGetUserById at h
  split at h
  · exact absurd h (by simp)
  · next hne =>
      have hne2 : isNonEmptyString (.vStr id) = true := by
        simpa using hne
      split at h
      · exact absurd h (by simp)
      · next addr heq =>
          split at h
          · exact absurd h (by simp)
          · split at h
            · next hu =>
                injection h with h2
                subst h2
                exact ⟨heq, hu, hne2⟩
            · exact absurd h (by simp)

/-- Claim C2, amended: the address getUserById hands back is exactly the
address the store's Map holds for that id — the live reference, not a
copy.  Consequently, after the caller mutates the object behind that
address (to any value still passing isUser), a subsequent getUserById
returns the same address and the store's content at it is the mutated
value: caller-side mutation does change what the store returns next. -/
theorem c2_live_reference (st : RefServiceState) (id : String) (a : Nat) (v : JSValue)
    (hget : refGetUserById st id = .success a) (hv : isUser v = true) :
    alistGet st.users id = some a ∧
    refGetUserById (refMutate st a v) id = .success a ∧
    heapGet (refMutate st a v).heap a = v := by
  obtain ⟨hlook, hiu, hne⟩ := refGetUserById_success st id a hget
  have halt : a < st.heap.length := by
    by_contra hcon
    have hlen : st.heap.length ≤ a := by omega
    have : heapGet st.heap a = .vUndefined := List.getD_eq_default _ _ hlen
    rw [this] at hiu
    simp [isUser, isObject] at hiu
  have hmut : heapGet (refMutate st a v).heap a = v := by
    unfold refMutate heapGet
    simp [List.getD_eq_getElem?_getD, List.getElem?_set_self halt]
  refine ⟨hlook, ?_, hmut⟩
  have hmut2 : heapGet (st.heap.set a v) a = v := hmut
  unfold refGetUserById
  simp only [refMutate]
  rw [hne, hlook]
  simp [hmut2, jsTruthy_of_isUser v hv, hv]

/-- The reference store after creating Ann. -/
def annRefStore : RefServiceState := (refCreateUser ⟨[], []⟩ f0 annInput).1

/-- The caller-side mutation: take the very object createUser returned
(heap cell zero) and overwrite its name. -/
def bobMutation : JSValue := setProp (heapGet annRefStore.heap 0) "name" (.vStr "Bob")

/-- Claim C2, counterexample: createUser returns the address of the
stored object itself; after the caller mutates the returned object's
name from Ann to Bob, a subsequent getUserById for the same id returns
an entity whose name is Bob — the mutation changed what the store hands
out, so the returned value was no copy. -/
theorem c2_counterexample :
    (refCreateUser ⟨[], []⟩ f0 annInput).2.dataOf = some 0 ∧
    alistGet annRefStore.users "user_2" = some 0 ∧
    strOf (jsGet (heapGet annRefStore.heap 0) "name") = "Ann" ∧
    refGetUserById (refMutate annRefStore 0 bobMutation) "user_2" = .success 0 ∧
    strOf (jsGet (heapGet (refMutate annRefStore 0 bobMutation).heap 0) "name") = "Bob" ∧
    ("Ann" ≠ "Bob") := by
  exact ⟨by decide, by decide, by decide, by rfl, by decide, by decide⟩

/-- Witness for claim C2 at the concrete Ann store and Bob mutation. -/
theorem c2_witness :
    alistGet annRefStore.users "user_2" = some 0 ∧
    refGetUserById (refMutate annRefStore 0 bobMutation) "user_2" = .success 0 ∧
    heapGet (refMutate annRefStore 0 bobMutation).heap 0 = bobMutation := by
  exact c2_live_reference annRefStore "user_2" 0 bobMutation (by rfl) (by decide)

/-! Claim C8. -/

theorem insertCmp_perm {α : Type} (c : α → α → Int) (x : α) (ys : List α) :
    List.Perm (insertCmp c x ys) (x :: ys) := by
  induction ys with
  | nil => exact List.Perm.refl _
  | cons y ys ih =>
      unfold insertCmp
      split
      · exact List.Perm.refl _
      · exact List.Perm.trans (List.Perm.cons y ih) (List.Perm.swap x y ys)

theorem sortByCmp_perm {α : Type} (c : α → α → Int) (xs : List α) :
    List.Perm (sortByCmp c xs) xs := by
  suffices h : ∀ acc : List α,
      List.Perm (xs.foldl (fun a x => insertCmp c x a) acc) (acc ++ xs) by
    simpa using h []
  induction xs with
  | nil => intro acc; simp
  | cons x xs ih =>
      intro acc
      rw [List.foldl_cons]
      refine List.Perm.trans (ih (insertCmp c x acc)) ?_
      refine List.Perm.trans (List.Perm.append_right xs (insertCmp_perm c x acc)) ?_
      exact List.perm_middle.symm

/-- The default page used when projecting out of a failed result. -/
def emptyPage : UsersPage := ⟨[], 0, .nan, .nan⟩

/-- The users list a getUsers result carries. -/
def pageUsersOf (r : UResult UsersPage) : List JSValue :=
  (r.dataOf.getD emptyPage).users

/-- The total a getUsers result reports. -/
def totalOf (r : UResult UsersPage) : ℕ :=
  (r.dataOf.getD emptyPage).total

/-- Claim C8: for every store and in-range page and limit, getUsers
succeeds, returns at most limit users, reports total equal to the size
of the full matching set (the stored values passing isUser); the sorted
set is a permutation of that full set, and concatenating the pages one
through ceil(total / limit) in order reproduces the entire sorted set
with no duplicates or omissions. -/
theorem c8_pagination (st : ServiceState) (p l : ℕ) (sb : Option String)
    (so : Option SortOrder) (hp : 1 ≤ p) (hl : 1 ≤ l) (hl100 : l ≤ 100) :
    (getUsers st (some (.finite (p : ℚ))) (some (.finite (l : ℚ))) sb so).ok = true ∧
    (pageUsersOf (getUsers st (some (.finite (p : ℚ)))
      (some (.finite (l : ℚ))) sb so)).length ≤ l ∧
    totalOf (getUsers st (some (.finite (p : ℚ))) (some (.finite (l : ℚ))) sb so)
      = (allUsersOf st).length ∧
    List.Perm (sortedOf st sb so) (allUsersOf st) ∧
    ((List.range ((totalOf (getUsers st (some (.finite (p : ℚ)))
          (some (.finite (l : ℚ))) sb so) + l - 1) / l)).flatMap
        (fun i => pageUsersOf (getUsers st (some (.finite ((i + 1 : ℕ) : ℚ)))
          (some (.finite (l : ℚ))) sb so)))
      = sortedOf st sb so := by
  have hmain := getUsers_nat st p l hp hl sb so
  have htot : totalOf (getUsers st (some (.finite (p : ℚ)))
      (some (.finite (l : ℚ))) sb so) = (allUsersOf st).length := by
    rw [hmain]
    rfl
  refine ⟨by rw [hmain]; rfl, ?_, htot, sortByCmp_perm _ _, ?_⟩
  · rw [hmain]
    simp only [pageUsersOf, UResult.dataOf, Option.getD_some]
    exact List.length_take_le _ _
  · rw [htot]
    have hpages : ∀ i ∈ List.range (((allUsersOf st).length + l - 1) / l),
        pageUsersOf (getUsers st (some (.finite ((i + 1 : ℕ) : ℚ)))
            (some (.finite (l : ℚ))) sb so)
          = ((sortedOf st sb so).drop (i * l)).take l := by
      intro i _
      rw [getUsers_nat st (i + 1) l (by omega) hl sb so]
      simp [pageUsersOf, UResult.dataOf]
    rw [List.flatMap_congr hpages]
    have hlen2 : (sortedOf st sb so).length = (allUsersOf st).length :=
      length_sortUsers _ _ _
    rw [← hlen2]
    exact pagesJoin l (by omega) (sortedOf st sb so).length (sortedOf st sb so) le_rfl

/-- A full valid entity fixture keyed by id with a given creation
instant. -/
def mkEntity (id : String) (t : Int) : JSValue := .vObj
  [("id", .vStr id), ("name", .vStr "Ann"), ("contact", annContact),
   ("age", .vNum (.finite 30)), ("isActive", .vBool true),
   ("tags", .vArr [.vStr "x"]),
   ("createdAt", .vDate (some t)), ("updatedAt", .vDate (some t))]

/-- A store holding three valid entities. -/
def st3 : ServiceState :=
  ⟨[("a", mkEntity "a" 1), ("b", mkEntity "b" 2), ("c", mkEntity "c" 3)], []⟩

/-- Witness for claim C8 at a three-entity store with page one and limit
two. -/
theorem c8_witness :
    (getUsers st3 (some (.finite ((1 : ℕ) : ℚ)))
      (some (.finite ((2 : ℕ) : ℚ))) none none).ok = true ∧
    (pageUsersOf (getUsers st3 (some (.finite ((1 : ℕ) : ℚ)))
      (some (.finite ((2 : ℕ) : ℚ))) none none)).length ≤ 2 ∧
    totalOf (getUsers st3 (some (.finite ((1 : ℕ) : ℚ)))
      (some (.finite ((2 : ℕ) : ℚ))) none none) = (allUsersOf st3).length ∧
    List.Perm (sortedOf st3 none none) (allUsersOf st3) ∧
    ((List.range ((totalOf (getUsers st3 (some (.finite ((1 : ℕ) : ℚ)))
          (some (.finite ((2 : ℕ) : ℚ))) none none) + 2 - 1) / 2)).flatMap
        (fun i => pageUsersOf (getUsers st3 (some (.finite ((i + 1 : ℕ) : ℚ)))
          (some (.finite ((2 : ℕ) : ℚ))) none none)))
      = sortedOf st3 none none := by
  exact c8_pagination st3 1 2 none none (by decide) (by decide) (by decide)
